import Mathlib

/-!
Verification of the ControlSerial protocol core (SonyCSLParis/ControlSerial).

The repository ships the test suite (`tests/test_encoder_decoder.py`,
`tests/test_control_serial.py`) for a module `ControlSerial/ControlSerial.py`
containing `EnvelopeEncoder`, `EnvelopeDecoder` and the `ControlSerial`
session class; that module itself is not in the source tree, so the
definitions below are modelled from the specification (`spec.md`), with the
tests used as corroborating constraints.  Frames are ASCII strings, the
transport is a list of inbound lines, and the retry state machine is a
structurally recursive function on the retry budget.
-/

deriving instance DecidableEq for Except

namespace ControlSerial

/-- Modelled from the spec: an outbound argument is a tagged value, one of
signed integer or text string; any other runtime type (e.g. a floating-point
number, represented here by the `float` constructor) is rejected by
validation. -/
inductive Arg where
  | int (i : Int)
  | str (s : String)
  | float
deriving DecidableEq, Repr

/-- Modelled from the spec: a decoded reply value is either an integer or a
string. -/
inductive PValue where
  | int (i : Int)
  | str (s : String)
deriving DecidableEq, Repr

/-! ## FrameEncoder (`EnvelopeEncoder` in the missing module) -/

/-- Modelled from the spec: the opcode character set `[A-Za-z0-9?]`. -/
def isValidOpcodeChar (c : Char) : Bool :=
  c.isAlpha || c.isDigit || c == '?'

/-- Modelled from the spec: integers render as decimal literals, strings are
wrapped in double quotes (no escaping logic beyond literal embedding).  The
`float` case is unreachable: validation rejects it before rendering. -/
def renderArg : Arg → String
  | .int i => toString i
  | .str s => "\"" ++ s ++ "\""
  | .float => ""

/-- Modelled from the spec: the bracketed argument list, omitted entirely when
there are zero arguments. -/
def renderArgs (args : List Arg) : String :=
  if args.isEmpty then ""
  else "[" ++ String.intercalate "," (args.map renderArg) ++ "]"

/-- Number of string arguments (at most one is permitted). -/
def countStrings (args : List Arg) : Nat :=
  (args.filter fun a => match a with | .str _ => true | _ => false).length

/-- Whether some argument is neither integer nor string. -/
def hasInvalidType (args : List Arg) : Bool :=
  args.any fun a => match a with | .float => true | _ => false

/-- Modelled from the spec: the counter is rendered zero-padded to (at least)
two decimal digits, as Python's `"%02d"` formatting does. -/
def renderCounter (n : Nat) : String :=
  if n < 10 then "0" ++ toString n else toString n

/-- One shift-xor step of the 8-bit CRC. -/
def crc8Step (c : Nat) : Nat :=
  let c := c % 256
  if 128 ≤ c then ((c * 2) ^^^ 0x07) % 256 else (c * 2) % 256

/-- Fold one byte into the CRC accumulator. -/
def crc8Byte (crc b : Nat) : Nat :=
  (List.range 8).foldl (fun c _ => crc8Step c) ((crc ^^^ b) % 256)

/-- Modelled from the spec: a standard 8-bit CRC computed over the ASCII bytes
of body+counter. -/
def crc8 (s : String) : Nat :=
  s.toList.foldl (fun c ch => crc8Byte c (ch.toNat % 256)) 0

/-- Hexadecimal digit for a value below 16. -/
def hexDigit (n : Nat) : Char :=
  if n < 10 then Char.ofNat (48 + n) else Char.ofNat (65 + n - 10)

/-- Modelled from the spec: the checksum is rendered as a fixed-width (two
hexadecimal characters) textual suffix directly after the counter field. -/
def renderChecksum (n : Nat) : String :=
  String.mk [hexDigit (n / 16 % 16), hexDigit (n % 16)]

/-- Modelled from the spec: suffix the rendered body with `:`, the counter,
the checksum over body+counter, and the line terminator; fail when the
rendered body exceeds 58 characters. -/
def convertCore (counter : Nat) (body : String) : Except String String :=
  if 58 < body.length then .error "Command too long"
  else
    let pre := body ++ ":" ++ renderCounter counter
    .ok (pre ++ renderChecksum (crc8 pre) ++ "\r\n")

/-- Modelled from the spec: `EnvelopeEncoder.convert` — validate the opcode
and arguments, then render `#<opcode>[<args>]` and hand it to `convertCore`.
The counter is passed explicitly (it is the encoder's only state). -/
def convert (counter : Nat) (opcode : String) (args : List Arg) :
    Except String String :=
  if opcode.length ≠ 1 then .error "Opcode must be one character"
  else if ¬ opcode.toList.all isValidOpcodeChar then .error "Invalid opcode"
  else if 12 < args.length then .error "Too many arguments"
  else if 1 < countStrings args then .error "Too many strings"
  else if hasInvalidType args then .error "Unsupported argument type"
  else convertCore counter ("#" ++ opcode ++ renderArgs args)

/-- Modelled from the spec: the counter increment performed after every
successfully encoded frame, wrapping 254 → 0. -/
def stepCounter (c : Nat) : Nat := (c + 1) % 255

/-- Run a sequence of encodes, threading the counter; stops at the first
validation failure.  Returns the frames and the final counter. -/
def encodeAll : Nat → List (String × List Arg) → Except String (List String × Nat)
  | c, [] => .ok ([], c)
  | c, (op, args) :: rest =>
    match convert c op args with
    | .error e => .error e
    | .ok f =>
      match encodeAll (stepCounter c) rest with
      | .error e => .error e
      | .ok (fs, c') => .ok (f :: fs, c')

/-- The validation predicate of `convert`, phrased as one boolean. -/
def validCommand (opcode : String) (args : List Arg) : Bool :=
  opcode.length == 1 && opcode.toList.all isValidOpcodeChar &&
    args.length ≤ 12 && countStrings args ≤ 1 && !hasInvalidType args &&
    ("#" ++ opcode ++ renderArgs args).length ≤ 58

/-! ## FrameDecoder (`EnvelopeDecoder` in the missing module) -/

/-- Whether the line's first character is `#`. -/
def firstIsPound (line : String) : Bool :=
  match line.toList with
  | '#' :: _ => true
  | _ => false

/-- Whether the line's first two characters are `#!`. -/
def firstIsPoundBang (line : String) : Bool :=
  match line.toList with
  | '#' :: '!' :: _ => true
  | _ => false

/-- Modelled from the spec: `is_valid_frame` — true iff line length > 1 and
the line starts with `#`. -/
def is_valid_message (line : String) : Bool :=
  1 < line.length && firstIsPound line

/-- Modelled from the spec: `is_log_line` — true iff line length > 2 and the
line starts with `#!`. -/
def is_log_message (line : String) : Bool :=
  2 < line.length && firstIsPoundBang line

/-- Digits to the natural number they denote in decimal. -/
def digitsToNat (ds : List Char) : Nat :=
  ds.foldl (fun n c => n * 10 + (c.toNat - 48)) 0

/-- Parse one integer literal (optional leading minus, then digits). -/
def parseIntLit (cs : List Char) : Option (PValue × List Char) :=
  match cs with
  | '-' :: cs' =>
    let ds := cs'.takeWhile Char.isDigit
    if ds.isEmpty then none
    else some (.int (-(digitsToNat ds : Int)), cs'.dropWhile Char.isDigit)
  | _ =>
    let ds := cs.takeWhile Char.isDigit
    if ds.isEmpty then none
    else some (.int (digitsToNat ds : Int), cs.dropWhile Char.isDigit)

/-- Parse the remainder of a double-quoted string literal; a backslash escapes
the following character (so quotes may contain escaped quote characters). -/
def parseStringRest : List Char → List Char → Option (PValue × List Char)
  | [], _ => none
  | '"' :: rest, acc => some (.str (String.mk acc.reverse), rest)
  | '\\' :: rest, acc =>
    match rest with
    | [] => none
    | c :: rest' => parseStringRest rest' (c :: acc)
  | c :: rest, acc => parseStringRest rest (c :: acc)

/-- Parse one element: an integer literal or a double-quoted string. -/
def parseValue (cs : List Char) : Option (PValue × List Char) :=
  match cs with
  | '"' :: rest => parseStringRest rest []
  | _ => parseIntLit cs

/-- Parse a non-empty comma-separated list of elements; `fuel` bounds the
recursion by the input length. -/
def parseValuesAux : Nat → List Char → Option (List PValue)
  | 0, _ => none
  | fuel + 1, cs =>
    match parseValue cs with
    | none => none
    | some (v, rest) =>
      match rest with
      | [] => some [v]
      | ',' :: rest' =>
        match parseValuesAux fuel rest' with
        | none => none
        | some vs => some (v :: vs)
      | _ => none

/-- Modelled from the spec: the bracket contents parse as a comma-separated
list of integers and double-quoted strings; empty contents give the empty
list. -/
def parseValues (cs : List Char) : Option (List PValue) :=
  if cs.isEmpty then some [] else parseValuesAux (cs.length + 1) cs

/-- Modelled from the spec: extract the substring between the first `[` and
the first `]` encountered after it; fail when either bracket is missing
(nested bracketed structures are not supported). -/
def extractContent (cs : List Char) : Option (List Char) :=
  match cs.dropWhile (fun c => c ≠ '[') with
  | [] => none
  | _ :: rest =>
    let content := rest.takeWhile (fun c => c ≠ ']')
    if content.length = rest.length then none else some content

/-- Modelled from the spec: `EnvelopeDecoder.parse` — extract the bracketed
substring and decode it; `none` models a `ParseError`. -/
def parse (line : String) : Option (List PValue) :=
  match extractContent line.toList with
  | none => none
  | some cs => parseValues cs

/-! ## CommandSession (`ControlSerial` in the missing module)

The transport is modelled as the list of inbound lines `readline` will
return, each still carrying its terminator; `none` results model a session
that blocks forever because the transport never produces another line. -/

/-- Modelled from the spec: decoding bytes to text and terminator handling is
the core's responsibility — trailing carriage-return / line-feed characters
are stripped from each inbound line. -/
def stripCRLF (s : String) : String :=
  String.mk ((s.toList.reverse.dropWhile fun c => c == '\r' || c == '\n').reverse)

/-- A stripped line is accepted as a reply iff it is a valid frame and not a
log line. -/
def isReplyLine (s : String) : Bool :=
  is_valid_message s && !is_log_message s

/-- Modelled from the spec: `read_reply` — repeatedly read a line, strip its
terminator, discard it unless it is a valid non-log frame; returns the
accepted line's text, the number of lines consumed and the remaining
transport. -/
def read_reply : List String → Option (String × Nat × List String)
  | [] => none
  | l :: rest =>
    let s := stripCRLF l
    if isReplyLine s then some (s, 1, rest)
    else
      match read_reply rest with
      | none => none
      | some (a, n, r) => some (a, n + 1, r)

/-- Modelled from the spec: the default retry budget of `execute`. -/
def defaultMaxRetries : Nat := 5

/-- Outcome of one `execute` call. -/
inductive ExecOutcome where
  /-- Status 0: the full parsed value list is returned. -/
  | success (values : List PValue)
  /-- Positive status: `RemoteError` carrying `values[1]` when present. -/
  | remoteError (msg : Option PValue)
  /-- Negative status on every attempt: `RetryExhaustedError`. -/
  | retryExhausted
  /-- The accepted line failed to parse: `ParseError`. -/
  | parseError
  /-- The parsed values are empty or do not start with an integer status. -/
  | badStatus
  /-- The command failed validation before any byte was sent. -/
  | validationFailed (msg : String)
deriving DecidableEq, Repr

/-- Result of an `execute` call that terminated. -/
structure ExecResult where
  outcome : ExecOutcome
  /-- Number of frames written to the transport. -/
  writes : Nat
  /-- Number of lines consumed from the transport. -/
  consumed : Nat
  /-- Final encoder counter. -/
  counter : Nat
deriving DecidableEq, Repr

/-- Modelled from the spec: the retry loop of `execute` — on each attempt a
fresh frame is encoded (advancing the counter), written, and the next reply
read and classified by its status code: `0` succeeds, `< 0` retries, `> 0`
is fatal. -/
def executeLoop (counter : Nat) (op : String) (args : List Arg) :
    Nat → List String → Nat → Nat → Option ExecResult
  | 0, _, writes, consumed => some ⟨.retryExhausted, writes, consumed, counter⟩
  | retriesLeft + 1, lines, writes, consumed =>
    match convert counter op args with
    | .error e => some ⟨.validationFailed e, writes, consumed, counter⟩
    | .ok _frame =>
      match read_reply lines with
      | none => none
      | some (reply, n, rest) =>
        match parse reply with
        | none => some ⟨.parseError, writes + 1, consumed + n, stepCounter counter⟩
        | some vs =>
          match vs with
          | .int s :: _ =>
            if s = 0 then
              some ⟨.success vs, writes + 1, consumed + n, stepCounter counter⟩
            else if s < 0 then
              executeLoop (stepCounter counter) op args retriesLeft rest
                (writes + 1) (consumed + n)
            else
              some ⟨.remoteError (vs.get? 1), writes + 1, consumed + n,
                stepCounter counter⟩
          | _ => some ⟨.badStatus, writes + 1, consumed + n, stepCounter counter⟩

/-- Modelled from the spec: `execute` — run the retry state machine from a
given encoder counter over a given transport. -/
def execute (counter : Nat) (op : String) (args : List Arg)
    (maxRetries : Nat) (lines : List String) : Option ExecResult :=
  executeLoop counter op args maxRetries lines 0 0

/-- The encoder counter after a sequence of encodes, when they all pass
validation. -/
def counterAfter (init : Nat) (cmds : List (String × List Arg)) : Option Nat :=
  match encodeAll init cmds with
  | .ok (_, c) => some c
  | .error _ => none

/-! ## Helper lemmas -/

/-- A validated command encodes to the body, colon, counter, checksum and
terminator. -/
theorem convert_ok_of_valid (c : Nat) (op : String) (args : List Arg)
    (h : validCommand op args = true) :
    convert c op args =
      .ok ("#" ++ op ++ renderArgs args ++ ":" ++ renderCounter c ++
        renderChecksum (crc8 ("#" ++ op ++ renderArgs args ++ ":" ++
          renderCounter c)) ++ "\r\n") := by
  unfold validCommand at h
  simp only [Bool.and_eq_true, beq_iff_eq, decide_eq_true_eq,
    Bool.not_eq_true'] at h
  obtain ⟨⟨⟨⟨⟨h1, h2⟩, h3⟩, h4⟩, h5⟩, h6⟩ := h
  unfold convert convertCore
  rw [if_neg (by simp [h1]), if_neg (not_not_intro h2), if_neg (by omega),
    if_neg (by omega), if_neg (by simp [h5]), if_neg (by omega)]

/-- An invalid command makes `convert` fail, whatever the counter. -/
theorem convert_error_of_invalid (c : Nat) (op : String) (args : List Arg)
    (h : validCommand op args = false) :
    ∃ e, convert c op args = .error e := by
  unfold convert convertCore
  by_cases h1 : op.length = 1
  case neg => exact ⟨_, by rw [if_pos (by simpa using h1)]⟩
  by_cases h2 : op.toList.all isValidOpcodeChar = true
  case neg =>
    exact ⟨_, by rw [if_neg (by simp [h1]), if_pos (by simpa using h2)]⟩
  by_cases h3 : args.length ≤ 12
  case neg =>
    exact ⟨_, by rw [if_neg (by simp [h1]), if_neg (not_not_intro h2),
      if_pos (by omega)]⟩
  by_cases h4 : countStrings args ≤ 1
  case neg =>
    exact ⟨_, by rw [if_neg (by simp [h1]), if_neg (not_not_intro h2),
      if_neg (by omega), if_pos (by omega)]⟩
  by_cases h5 : hasInvalidType args = false
  case neg =>
    exact ⟨_, by rw [if_neg (by simp [h1]), if_neg (not_not_intro h2),
      if_neg (by omega), if_neg (by omega),
      if_pos (by simpa using h5)]⟩
  by_cases h6 : ("#" ++ op ++ renderArgs args).length ≤ 58
  case neg =>
    exact ⟨_, by rw [if_neg (by simp [h1]), if_neg (not_not_intro h2),
      if_neg (by omega), if_neg (by omega), if_neg (by simp [h5]),
      if_pos (by omega)]⟩
  exfalso
  have hval : validCommand op args = true := by
    unfold validCommand
    rw [h2, h5]
    have h6a : "#".length + 1 + (renderArgs args).length ≤ 58 := by
      simpa [h1] using h6
    simp [h1, h3, h4, h6a]
  simp [hval] at h

/-- `read_reply` accepts the head of the transport when it is a reply. -/
theorem read_reply_accept (l : String) (rest : List String)
    (hl : isReplyLine (stripCRLF l) = true) :
    read_reply (l :: rest) = some (stripCRLF l, 1, rest) := by
  simp [read_reply, hl]

/-- `read_reply` discards every leading non-reply line and accepts the first
reply after them, counting all consumed lines. -/
theorem read_reply_skip (junk : List String) (good : String)
    (rest : List String) (hg : isReplyLine (stripCRLF good) = true) :
    (∀ l ∈ junk, isReplyLine (stripCRLF l) = false) →
    read_reply (junk ++ good :: rest) =
      some (stripCRLF good, junk.length + 1, rest) := by
  induction junk with
  | nil => intro _; simpa using read_reply_accept good rest hg
  | cons l ls ih =>
    intro h
    have hl := h l (by simp)
    have ihh := ih fun x hx => h x (by simp [hx])
    simp [read_reply, hl, ihh]

/-- Across one attempt with a successful (status 0) reply, the loop stops and
returns the parsed values. -/
theorem executeLoop_step_success (op : String) (args : List Arg) (c : Nat)
    (hcmd : validCommand op args = true) (lines : List String)
    (reply : String) (n : Nat) (rest : List String)
    (hread : read_reply lines = some (reply, n, rest))
    (vs : List PValue) (hparse : parse reply = some (.int 0 :: vs))
    (r w k : Nat) :
    executeLoop c op args (r + 1) lines w k =
      some ⟨.success (.int 0 :: vs), w + 1, k + n, stepCounter c⟩ := by
  have hok := convert_ok_of_valid c op args hcmd
  simp [executeLoop, hok, hread, hparse]

/-- Across one attempt with a negative-status reply, the loop retries with an
advanced counter on the remaining transport. -/
theorem executeLoop_step_neg (op : String) (args : List Arg) (c : Nat)
    (hcmd : validCommand op args = true) (lines : List String)
    (reply : String) (n : Nat) (rest : List String)
    (hread : read_reply lines = some (reply, n, rest))
    (s : Int) (vs : List PValue)
    (hparse : parse reply = some (.int s :: vs)) (hs : s < 0)
    (r w k : Nat) :
    executeLoop c op args (r + 1) lines w k =
      executeLoop (stepCounter c) op args r rest (w + 1) (k + n) := by
  have hok := convert_ok_of_valid c op args hcmd
  have hne : ¬ s = 0 := by omega
  simp [executeLoop, hok, hread, hparse, hne, hs]

/-- Across one attempt with a positive-status reply, the loop fails at once
with a remote error carrying `values[1]`. -/
theorem executeLoop_step_fatal (op : String) (args : List Arg) (c : Nat)
    (hcmd : validCommand op args = true) (lines : List String)
    (reply : String) (n : Nat) (rest : List String)
    (hread : read_reply lines = some (reply, n, rest))
    (s : Int) (vs : List PValue)
    (hparse : parse reply = some (.int s :: vs)) (hs : 0 < s)
    (r w k : Nat) :
    executeLoop c op args (r + 1) lines w k =
      some ⟨.remoteError ((PValue.int s :: vs).get? 1), w + 1, k + n,
        stepCounter c⟩ := by
  have hok := convert_ok_of_valid c op args hcmd
  have hne : ¬ s = 0 := by omega
  have hnl : ¬ s < 0 := by omega
  simp [executeLoop, hok, hread, hparse, hne, hnl]

/-- A run of accepted negative-status replies consumes one retry, one write
and one line each, advancing the counter once per attempt. -/
theorem executeLoop_consume_negs (op : String) (args : List Arg)
    (hcmd : validCommand op args = true) (negs : List String) :
    (∀ l ∈ negs, isReplyLine (stripCRLF l) = true ∧
       ∃ s vs, parse (stripCRLF l) = some (.int s :: vs) ∧ s < 0) →
    ∀ (m c w k : Nat) (rest : List String),
      executeLoop c op args (negs.length + m) (negs ++ rest) w k =
        executeLoop (stepCounter^[negs.length] c) op args m rest
          (w + negs.length) (k + negs.length) := by
  induction negs with
  | nil => intro _ m c w k rest; simp
  | cons l ls ih =>
    intro h m c w k rest
    obtain ⟨hl, s, vs, hp, hs⟩ := h l (by simp)
    have hr : read_reply (l :: (ls ++ rest)) = some (stripCRLF l, 1, ls ++ rest) :=
      read_reply_accept l (ls ++ rest) hl
    have hstep := executeLoop_step_neg op args c hcmd (l :: (ls ++ rest))
      (stripCRLF l) 1 (ls ++ rest) hr s vs hp hs (ls.length + m) w k
    have hrw1 : (l :: ls).length + m = ls.length + m + 1 := by
      simp [List.length_cons]; omega
    have hrw2 : (l :: ls) ++ rest = l :: (ls ++ rest) := rfl
    rw [hrw1, hrw2, hstep, ih (fun x hx => h x (by simp [hx])) m
      (stepCounter c) (w + 1) (k + 1) rest]
    have h1 : w + 1 + ls.length = w + (l :: ls).length := by simp; omega
    have h2 : k + 1 + ls.length = k + (l :: ls).length := by simp; omega
    have h3 : stepCounter^[ls.length] (stepCounter c) =
        stepCounter^[(l :: ls).length] c := by
      simp [Function.iterate_succ_apply]
    rw [h1, h2, h3]

/-- With the retry budget exhausted, the loop reports `RetryExhaustedError`
without touching the transport. -/
theorem executeLoop_exhausted (op : String) (args : List Arg)
    (c w k : Nat) (lines : List String) :
    executeLoop c op args 0 lines w k =
      some ⟨.retryExhausted, w, k, c⟩ := rfl

/-- Iterating the counter increment from a value in range adds modulo 255. -/
theorem stepCounter_iterate (n : Nat) :
    ∀ c, c < 255 → stepCounter^[n] c = (c + n) % 255 := by
  induction n with
  | zero => intro c hc; simpa using (Nat.mod_eq_of_lt hc).symm
  | succ n ih =>
    intro c hc
    rw [Function.iterate_succ_apply]
    have h1 : stepCounter c = (c + 1) % 255 := rfl
    have h2 : (c + 1) % 255 < 255 := Nat.mod_lt _ (by norm_num)
    rw [h1, ih ((c + 1) % 255) h2, Nat.mod_add_mod]
    congr 1
    omega

/-- The counter threaded through a successful `encodeAll` run advances by one
per command, modulo 255. -/
theorem encodeAll_counter (cmds : List (String × List Arg)) :
    ∀ (init : Nat) (fs : List String) (cfin : Nat), init < 255 →
      encodeAll init cmds = .ok (fs, cfin) →
      cfin = (init + cmds.length) % 255 := by
  induction cmds with
  | nil =>
    intro init fs cfin h he
    simp only [encodeAll] at he
    cases he
    simpa using (Nat.mod_eq_of_lt h).symm
  | cons hd tl ih =>
    intro init fs cfin h he
    obtain ⟨op, args⟩ := hd
    simp only [encodeAll] at he
    cases h1 : convert init op args with
    | error e => rw [h1] at he; cases he
    | ok f =>
      rw [h1] at he
      cases h2 : encodeAll (stepCounter init) tl with
      | error e => rw [h2] at he; cases he
      | ok p =>
        obtain ⟨fs2, c2⟩ := p
        rw [h2] at he
        simp only [Except.ok.injEq, Prod.mk.injEq] at he
        obtain ⟨hfs, hc⟩ := he
        subst hc
        have hlt : stepCounter init < 255 := Nat.mod_lt _ (by norm_num)
        have := ih (stepCounter init) fs2 c2 hlt h2
        rw [this]
        show ((init + 1) % 255 + tl.length) % 255 = _
        rw [Nat.mod_add_mod]
        congr 1
        simp
        omega

/-! ## Claims -/

/-- C1: when the first k-1 replies carry a negative status and the k-th
carries status 0 (k ≤ max_retries), `execute` returns the k-th reply's full
parsed value list after exactly k writes, each attempt freshly encoded
(counter advanced k times); when every reply carries a negative status,
`execute` with max_retries = N fails with `RetryExhaustedError` after
exactly N writes. -/
theorem execute_retry_and_exhaustion (op : String) (args : List Arg)
    (c0 : Nat) (hcmd : validCommand op args = true) (hc : c0 < 255) :
    (∀ (negs : List String) (good : String) (vs : List PValue)
       (rest : List String) (maxR : Nat),
       (∀ l ∈ negs, isReplyLine (stripCRLF l) = true ∧
          ∃ s vs0, parse (stripCRLF l) = some (.int s :: vs0) ∧ s < 0) →
       isReplyLine (stripCRLF good) = true →
       parse (stripCRLF good) = some (.int 0 :: vs) →
       negs.length < maxR →
       execute c0 op args maxR (negs ++ good :: rest) =
         some ⟨.success (.int 0 :: vs), negs.length + 1, negs.length + 1,
           (c0 + (negs.length + 1)) % 255⟩) ∧
    (∀ (negs rest : List String),
       (∀ l ∈ negs, isReplyLine (stripCRLF l) = true ∧
          ∃ s vs0, parse (stripCRLF l) = some (.int s :: vs0) ∧ s < 0) →
       execute c0 op args negs.length (negs ++ rest) =
         some ⟨.retryExhausted, negs.length, negs.length,
           (c0 + negs.length) % 255⟩) := by
  constructor
  · intro negs good vs rest maxR hnegs hgood hparse hmax
    obtain ⟨r, rfl⟩ : ∃ r, maxR = negs.length + (r + 1) :=
      ⟨maxR - negs.length - 1, by omega⟩
    unfold execute
    rw [executeLoop_consume_negs op args hcmd negs hnegs (r + 1) c0 0 0
      (good :: rest)]
    rw [executeLoop_step_success op args (stepCounter^[negs.length] c0) hcmd
      (good :: rest) (stripCRLF good) 1 rest (read_reply_accept good rest hgood)
      vs hparse r (0 + negs.length) (0 + negs.length)]
    have hcnt : stepCounter (stepCounter^[negs.length] c0) =
        (c0 + (negs.length + 1)) % 255 := by
      have hi := Function.iterate_succ_apply' stepCounter negs.length c0
      rw [← hi]
      exact stepCounter_iterate (negs.length + 1) c0 hc
    simp [hcnt]
  · intro negs rest hnegs
    unfold execute
    have h := executeLoop_consume_negs op args hcmd negs hnegs 0 c0 0 0 rest
    rw [Nat.add_zero] at h
    rw [h, executeLoop_exhausted]
    have hcnt : stepCounter^[negs.length] c0 = (c0 + negs.length) % 255 :=
      stepCounter_iterate negs.length c0 hc
    simp [hcnt]

/-- Witness for C1: scenario B (statuses -1, -1, 0 across three replies gives
the third reply's values after 3 writes) and scenario C (five negative
replies with the default budget of 5 exhaust the retries after 5 writes). -/
theorem execute_retry_and_exhaustion_witness :
    execute 0 "r" [] 5 ["#R[-1]\r\n", "#R[-1]\r\n", "#R[0,100]\r\n"] =
      some ⟨.success [.int 0, .int 100], 3, 3, 3⟩ ∧
    execute 0 "e" [Arg.int 0] defaultMaxRetries
        ["#R[-1]\r\n", "#R[-1]\r\n", "#R[-1]\r\n", "#R[-1]\r\n", "#R[-1]\r\n"] =
      some ⟨.retryExhausted, 5, 5, 5⟩ := by
  have hneg1 : ∀ l ∈ ["#R[-1]\r\n", "#R[-1]\r\n"],
      isReplyLine (stripCRLF l) = true ∧
      ∃ s vs0, parse (stripCRLF l) = some (.int s :: vs0) ∧ s < 0 := by
    intro l hl
    have hll : l = "#R[-1]\r\n" := by
      simp only [List.mem_cons, List.not_mem_nil, or_false] at hl
      rcases hl with h | h <;> exact h
    subst hll
    exact ⟨by decide, -1, [], by decide, by decide⟩
  have hneg2 : ∀ l ∈ ["#R[-1]\r\n", "#R[-1]\r\n", "#R[-1]\r\n",
      "#R[-1]\r\n", "#R[-1]\r\n"],
      isReplyLine (stripCRLF l) = true ∧
      ∃ s vs0, parse (stripCRLF l) = some (.int s :: vs0) ∧ s < 0 := by
    intro l hl
    have hll : l = "#R[-1]\r\n" := by
      simp only [List.mem_cons, List.not_mem_nil, or_false] at hl
      rcases hl with h | h | h | h | h <;> exact h
    subst hll
    exact ⟨by decide, -1, [], by decide, by decide⟩
  constructor
  · have h := (execute_retry_and_exhaustion "r" [] 0 (by decide) (by decide)).1
      ["#R[-1]\r\n", "#R[-1]\r\n"] "#R[0,100]\r\n" [.int 100] [] 5
      hneg1 (by decide) (by decide) (by decide)
    rw [show (["#R[-1]\r\n", "#R[-1]\r\n"] ++ ["#R[0,100]\r\n"] : List String) =
      ["#R[-1]\r\n", "#R[-1]\r\n", "#R[0,100]\r\n"] from rfl] at h
    rw [h]
    decide
  · have h := (execute_retry_and_exhaustion "e" [Arg.int 0] 0 (by decide)
      (by decide)).2
      ["#R[-1]\r\n", "#R[-1]\r\n", "#R[-1]\r\n", "#R[-1]\r\n", "#R[-1]\r\n"]
      [] hneg2
    rw [show (["#R[-1]\r\n", "#R[-1]\r\n", "#R[-1]\r\n", "#R[-1]\r\n",
      "#R[-1]\r\n"] ++ ([] : List String)) =
      ["#R[-1]\r\n", "#R[-1]\r\n", "#R[-1]\r\n", "#R[-1]\r\n", "#R[-1]\r\n"]
      from rfl] at h
    rw [show defaultMaxRetries =
      (["#R[-1]\r\n", "#R[-1]\r\n", "#R[-1]\r\n", "#R[-1]\r\n",
        "#R[-1]\r\n"] : List String).length from rfl]
    rw [h]
    decide

/-- C2: when the first accepted reply carries a positive status code,
`execute` stops at once with a `RemoteError` carrying `values[1]` of that
reply, after exactly one write and no retry. -/
theorem execute_remote_error (op : String) (args : List Arg) (c0 : Nat)
    (hcmd : validCommand op args = true)
    (junk : List String) (fatal : String) (rest : List String)
    (s : Int) (vs : List PValue) (maxR : Nat)
    (hjunk : ∀ l ∈ junk, isReplyLine (stripCRLF l) = false)
    (hfat : isReplyLine (stripCRLF fatal) = true)
    (hparse : parse (stripCRLF fatal) = some (.int s :: vs))
    (hs : 0 < s) (hmax : 0 < maxR) :
    execute c0 op args maxR (junk ++ fatal :: rest) =
      some ⟨.remoteError ((PValue.int s :: vs).get? 1), 1, junk.length + 1,
        stepCounter c0⟩ := by
  obtain ⟨r, rfl⟩ : ∃ r, maxR = r + 1 := ⟨maxR - 1, by omega⟩
  unfold execute
  rw [executeLoop_step_fatal op args c0 hcmd (junk ++ fatal :: rest)
    (stripCRLF fatal) (junk.length + 1) rest
    (read_reply_skip junk fatal rest hfat hjunk) s vs hparse hs r 0 0]
  simp

/-- Witness for C2: scenario D — a single reply with status 1 and message
string raises the remote error with that message after one write. -/
theorem execute_remote_error_witness :
    execute 0 "e" [Arg.int 0] defaultMaxRetries ["#R[1,\"Command error\"]\r\n"] =
      some ⟨.remoteError (some (.str "Command error")), 1, 1, 1⟩ := by
  have h := execute_remote_error "e" [Arg.int 0] 0 (by decide) []
    "#R[1,\"Command error\"]\r\n" [] 1 [.str "Command error"] defaultMaxRetries
    (by simp) (by decide) (by decide) (by decide) (by decide)
  rw [show (([] : List String) ++ ["#R[1,\"Command error\"]\r\n"]) =
    ["#R[1,\"Command error\"]\r\n"] from rfl] at h
  rw [h]
  decide

/-- C3: while awaiting a reply the session discards every line failing
`is_valid_frame` and every log line; with m discardable lines before a valid
reply, `read_reply` (and `execute`) consume exactly m+1 lines and the result
is based on the (m+1)-th. -/
theorem read_reply_skips_discardable (junk : List String)
    (hjunk : ∀ l ∈ junk, isReplyLine (stripCRLF l) = false) :
    (∀ (good : String) (rest : List String),
       isReplyLine (stripCRLF good) = true →
       read_reply (junk ++ good :: rest) =
         some (stripCRLF good, junk.length + 1, rest)) ∧
    (∀ (op : String) (args : List Arg) (c0 maxR : Nat) (vs : List PValue)
       (good : String) (rest : List String),
       validCommand op args = true → 0 < maxR →
       isReplyLine (stripCRLF good) = true →
       parse (stripCRLF good) = some (.int 0 :: vs) →
       execute c0 op args maxR (junk ++ good :: rest) =
         some ⟨.success (.int 0 :: vs), 1, junk.length + 1, stepCounter c0⟩) := by
  constructor
  · intro good rest hg
    exact read_reply_skip junk good rest hg hjunk
  · intro op args c0 maxR vs good rest hcmd hmax hg hp
    obtain ⟨r, rfl⟩ : ∃ r, maxR = r + 1 := ⟨maxR - 1, by omega⟩
    unfold execute
    rw [executeLoop_step_success op args c0 hcmd (junk ++ good :: rest)
      (stripCRLF good) (junk.length + 1) rest
      (read_reply_skip junk good rest hg hjunk) vs hp r 0 0]
    simp

/-- Witness for C3: scenario E — three log lines then `#R[0,123]` give a
result based on the fourth line with exactly 4 lines consumed. -/
theorem read_reply_skips_discardable_witness :
    read_reply ["#!Log 1\r\n", "#!Log 2\r\n", "#!Log 3\r\n", "#R[0,123]\r\n"] =
      some ("#R[0,123]", 4, []) ∧
    execute 0 "r" [] 5 ["#!Log 1\r\n", "#!Log 2\r\n", "#!Log 3\r\n",
      "#R[0,123]\r\n"] = some ⟨.success [.int 0, .int 123], 1, 4, 1⟩ := by
  have hjunk : ∀ l ∈ ["#!Log 1\r\n", "#!Log 2\r\n", "#!Log 3\r\n"],
      isReplyLine (stripCRLF l) = false := by decide
  have h := read_reply_skips_discardable
    ["#!Log 1\r\n", "#!Log 2\r\n", "#!Log 3\r\n"] hjunk
  constructor
  · have h1 := h.1 "#R[0,123]\r\n" [] (by decide)
    rw [show (["#!Log 1\r\n", "#!Log 2\r\n", "#!Log 3\r\n"] ++
      ["#R[0,123]\r\n"]) = ["#!Log 1\r\n", "#!Log 2\r\n", "#!Log 3\r\n",
      "#R[0,123]\r\n"] from rfl] at h1
    rw [h1]
    decide
  · have h2 := h.2 "r" [] 0 5 [.int 123] "#R[0,123]\r\n" []
      (by decide) (by decide) (by decide) (by decide)
    rw [show (["#!Log 1\r\n", "#!Log 2\r\n", "#!Log 3\r\n"] ++
      ["#R[0,123]\r\n"]) = ["#!Log 1\r\n", "#!Log 2\r\n", "#!Log 3\r\n",
      "#R[0,123]\r\n"] from rfl] at h2
    rw [h2]
    decide

/-- C4: `encode` fails with `ValidationError`, before any byte is written,
exactly when the command is malformed: opcode length ≠ 1, opcode outside
`[A-Za-z0-9?]`, more than 12 arguments, more than one string argument, an
argument that is neither integer nor string, or a rendered body longer than
58 characters; on every well-formed command it succeeds. -/
theorem convert_validation_iff (c : Nat) (op : String) (args : List Arg) :
    ((∃ e, convert c op args = .error e) ↔
      ¬ (op.length = 1 ∧ op.toList.all isValidOpcodeChar = true ∧
         args.length ≤ 12 ∧ countStrings args ≤ 1 ∧
         hasInvalidType args = false ∧
         ("#" ++ op ++ renderArgs args).length ≤ 58)) ∧
    (∀ (e : String) (maxR : Nat) (lines : List String), 0 < maxR →
       convert c op args = .error e →
       execute c op args maxR lines = some ⟨.validationFailed e, 0, 0, c⟩) := by
  have hbool : validCommand op args = true ↔
      (op.length = 1 ∧ op.toList.all isValidOpcodeChar = true ∧
       args.length ≤ 12 ∧ countStrings args ≤ 1 ∧
       hasInvalidType args = false ∧
       ("#" ++ op ++ renderArgs args).length ≤ 58) := by
    unfold validCommand
    simp only [Bool.and_eq_true, beq_iff_eq, decide_eq_true_eq,
      Bool.not_eq_true']
    tauto
  constructor
  · constructor
    · rintro ⟨e, he⟩ hcond
      rw [convert_ok_of_valid c op args (hbool.mpr hcond)] at he
      cases he
    · intro hn
      cases hv : validCommand op args with
      | false => exact convert_error_of_invalid c op args hv
      | true => exact absurd (hbool.mp hv) hn
  · intro e maxR lines hmax he
    obtain ⟨r, rfl⟩ : ∃ r, maxR = r + 1 := ⟨maxR - 1, by omega⟩
    unfold execute
    simp [executeLoop, he]

/-- Witness for C4: a three-character opcode is rejected, and an invalid
opcode makes `execute` fail with zero writes. -/
theorem convert_validation_iff_witness :
    (∃ e, convert 0 "abc" [] = .error e) ∧
    execute 0 "%" [] defaultMaxRetries [] =
      some ⟨.validationFailed "Invalid opcode", 0, 0, 0⟩ := by
  constructor
  · exact (convert_validation_iff 0 "abc" []).1.mpr (by decide)
  · exact (convert_validation_iff 0 "%" []).2 "Invalid opcode"
      defaultMaxRetries [] (by decide) (by decide)

set_option maxRecDepth 20000 in
/-- C5 counterexample: at the reachable counter value 100 (the counter
ranges over 0–254), the frame's counter field `renderCounter 100` is the
3-character string "100", not exactly 2 characters, refuting the claim that
the counter field is always exactly 2 characters of zero-padded decimal. -/
theorem counter_field_three_chars_at_100 :
    convert 100 "e" [Arg.int 0] = .ok "#e[0]:1000C\r\n" ∧
    (100 : Nat) ≤ 254 ∧ renderCounter 100 = "100" ∧
    ¬ (renderCounter 100).length = 2 := by decide

set_option maxRecDepth 20000 in
/-- C5 (amended): the counter after N successive successful encodes equals
(initial + N) mod 255 — 254 wraps to 0 and the counter never reaches 255 —
and the counter field is zero-padded decimal of width at least 2: exactly 2
characters when the counter is below 100 and 3 characters for counters
100–254. -/
theorem counter_wrap_and_padding (init : Nat) (hinit : init ≤ 254) :
    (∀ (cmds : List (String × List Arg)) (cfin : Nat),
       counterAfter init cmds = some cfin →
       cfin = (init + cmds.length) % 255 ∧ cfin ≤ 254) ∧
    (∀ n, n < 100 → (renderCounter n).length = 2) ∧
    (∀ n, 100 ≤ n → n ≤ 254 → (renderCounter n).length = 3) := by
  refine ⟨?_, by decide, ?_⟩
  · intro cmds cfin h
    unfold counterAfter at h
    cases he : encodeAll init cmds with
    | error e => rw [he] at h; cases h
    | ok p =>
      obtain ⟨fs, c2⟩ := p
      rw [he] at h
      simp only [Option.some.injEq] at h
      subst h
      have heq := encodeAll_counter cmds init fs c2 (by omega) he
      refine ⟨heq, ?_⟩
      rw [heq]
      have := Nat.mod_lt (init + cmds.length) (show 0 < 255 by norm_num)
      omega
  · intro n h1 h2
    have H : ∀ n, n < 255 → (100 ≤ n → (renderCounter n).length = 3) := by
      decide
    exact H n (by omega) h1

set_option maxRecDepth 60000 in
/-- Witness for C5: from counter 253, two successful encodes wrap the
counter to 0 = (253 + 2) mod 255; padding widths at 7 and 254. -/
theorem counter_wrap_and_padding_witness :
    ((0 : Nat) = (253 + 2) % 255 ∧ (0 : Nat) ≤ 254) ∧
    (renderCounter 7).length = 2 ∧ (renderCounter 254).length = 3 := by
  refine ⟨?_, ?_, ?_⟩
  · have h := (counter_wrap_and_padding 253 (by decide)).1
      [("e", [Arg.int 0]), ("e", [Arg.int 0])] 0 (by decide)
    exact ⟨by simp, h.2⟩
  · exact (counter_wrap_and_padding 0 (by decide)).2.1 7 (by decide)
  · exact (counter_wrap_and_padding 0 (by decide)).2.2 254 (by decide)
      (by decide)

/-- C6: every frame produced for a valid command has the shape
`#<opcode>[<a1,a2,...>]:<counter><checksum>\r\n`, with integers rendered as
decimal literals and strings wrapped in double quotes; with zero arguments
the bracketed list is omitted entirely, so no bracket appears before the
colon. -/
theorem frame_shape (c : Nat) (op : String) (args : List Arg)
    (hcmd : validCommand op args = true) :
    ∃ chk : String,
      convert c op args =
        .ok ("#" ++ op ++ renderArgs args ++ ":" ++ renderCounter c ++ chk ++
          "\r\n") ∧
      chk.length = 2 ∧
      (∀ i : Int, renderArg (.int i) = toString i) ∧
      (∀ s : String, renderArg (.str s) = "\"" ++ s ++ "\"") ∧
      (args ≠ [] →
        renderArgs args =
          "[" ++ String.intercalate "," (args.map renderArg) ++ "]") ∧
      (args = [] →
        renderArgs args = "" ∧
        '[' ∉ ("#" ++ op).toList ∧ ']' ∉ ("#" ++ op).toList) := by
  have hv := hcmd
  unfold validCommand at hv
  simp only [Bool.and_eq_true, beq_iff_eq, decide_eq_true_eq,
    Bool.not_eq_true'] at hv
  obtain ⟨⟨⟨⟨⟨h1, h2⟩, _⟩, _⟩, _⟩, _⟩ := hv
  refine ⟨renderChecksum (crc8 ("#" ++ op ++ renderArgs args ++ ":" ++
    renderCounter c)), convert_ok_of_valid c op args hcmd, rfl,
    fun i => rfl, fun s => rfl, ?_, ?_⟩
  · intro hne
    unfold renderArgs
    rw [if_neg (by simpa [List.isEmpty_iff] using hne)]
  · intro he
    subst he
    refine ⟨rfl, ?_, ?_⟩
    all_goals {
      obtain ⟨ch, hch⟩ := List.length_eq_one.mp
        (show op.toList.length = 1 from h1)
      have hvalid : isValidOpcodeChar ch = true := by
        rw [hch] at h2
        simpa using h2
      have hlist : ("#" ++ op).toList = '#' :: op.toList := rfl
      intro hmem
      rw [hlist, hch] at hmem
      simp only [List.mem_cons, List.not_mem_nil, or_false] at hmem
      rcases hmem with h | h
      · cases h
      · subst h
        revert hvalid
        decide
    }

/-- Witness for C6: the zero-argument command `r` is valid, renders no
bracket, and the prefix before the colon contains no bracket character. -/
theorem frame_shape_witness :
    validCommand "r" [] = true ∧ renderArgs ([] : List Arg) = "" ∧
    '[' ∉ ("#" ++ "r").toList := by
  have h := frame_shape 0 "r" [] (by decide)
  obtain ⟨chk, _, _, _, _, _, hnil⟩ := h
  obtain ⟨hra, hb1, _⟩ := hnil rfl
  exact ⟨by decide, hra, hb1⟩

/-- C7: `parse` returns the ordered list of decoded values between the
brackets — empty list for `#R[]`, integers decoded as integers (including
negatives), double-quoted strings decoded as strings with escaped quotes
supported, order preserved. -/
theorem parse_examples :
    parse "#R[]\r\n" = some [] ∧
    parse "#R[0,1]\r\n" = some [.int 0, .int 1] ∧
    parse "#R[1,\"Command error\"]\r\n" =
      some [.int 1, .str "Command error"] ∧
    parse "#R[-1,-100]\r\n" = some [.int (-1), .int (-100)] ∧
    parse "#R[0,123,456,789]\r\n" =
      some [.int 0, .int 123, .int 456, .int 789] ∧
    parse "#R[0,42,\"status\",123]\r\n" =
      some [.int 0, .int 42, .str "status", .int 123] ∧
    parse "#R[0,\"test\\\"quote\"]\r\n" =
      some [.int 0, .str "test\"quote"] := by decide

/-- C8: `parse` extracts the substring between the first opening bracket and
the first closing bracket, so the nested input `#R[[1,2],[3,4]]` extracts
`[1,2` and fails with `ParseError` instead of returning nested values. -/
theorem parse_first_bracket_limitation :
    parse "#R[[1,2],[3,4]]\r\n" = none ∧
    extractContent ("#R[[1,2],[3,4]]\r\n".toList) =
      some ("[1,2".toList) := by decide

/-- C9: for every accepted reply line, `read_reply` returns the line's text
with the trailing line terminator removed; the transport line
`#R[0,42]\r\n` yields exactly `#R[0,42]`. -/
theorem read_reply_strips_terminator :
    (∀ (l : String) (rest : List String), isReplyLine (stripCRLF l) = true →
       read_reply (l :: rest) = some (stripCRLF l, 1, rest)) ∧
    (∀ s : String, (∀ c ∈ s.toList, c ≠ '\r' ∧ c ≠ '\n') →
       stripCRLF (s ++ "\r\n") = s) ∧
    read_reply ["#R[0,42]\r\n"] = some ("#R[0,42]", 1, []) := by
  refine ⟨fun l rest h => read_reply_accept l rest h, ?_, by decide⟩
  intro s h
  unfold stripCRLF
  have hd : (s ++ "\r\n").toList = s.toList ++ ['\r', '\n'] := rfl
  rw [hd, List.reverse_append]
  have hrev2 : (['\r', '\n'] : List Char).reverse = ['\n', '\r'] := rfl
  rw [hrev2]
  have hpred : ∀ c ∈ s.toList.reverse, (c == '\r' || c == '\n') = false := by
    intro c hc
    have hcc := h c (List.mem_reverse.mp hc)
    simp [hcc.1, hcc.2]
  have hstep :
      List.dropWhile (fun c => c == '\r' || c == '\n')
        (['\n', '\r'] ++ s.toList.reverse) =
      List.dropWhile (fun c => c == '\r' || c == '\n') s.toList.reverse := by
    simp [List.dropWhile]
  rw [hstep]
  have hdrop :
      List.dropWhile (fun c => c == '\r' || c == '\n') s.toList.reverse =
        s.toList.reverse := by
    cases hrevc : s.toList.reverse with
    | nil => simp
    | cons c t =>
      have hc := hpred c (by rw [hrevc]; exact List.mem_cons_self c t)
      simp [List.dropWhile, hc]
  rw [hdrop, List.reverse_reverse]
  rfl

/-- Witness for C9: the accepted line `#R[0]\r\n` is returned stripped, and
stripping removes exactly the appended terminator. -/
theorem read_reply_strips_terminator_witness :
    read_reply ["#R[0]\r\n"] = some (stripCRLF "#R[0]\r\n", 1, []) ∧
    stripCRLF ("#R[0]" ++ "\r\n") = "#R[0]" := by
  constructor
  · exact read_reply_strips_terminator.1 "#R[0]\r\n" [] (by decide)
  · exact read_reply_strips_terminator.2.1 "#R[0]" (by decide)

/-- C10: a frame depends only on the opcode, the arguments and the counter:
two encoder states that reached the same counter value, through whatever
history of successful encodes, produce byte-for-byte identical frames. -/
theorem frame_deterministic_in_counter (i1 i2 c1 c2 : Nat)
    (cs1 cs2 : List (String × List Arg)) (op : String) (args : List Arg)
    (_h1 : counterAfter i1 cs1 = some c1)
    (_h2 : counterAfter i2 cs2 = some c2)
    (hc : c1 = c2) :
    convert c1 op args = convert c2 op args := by rw [hc]

set_option maxRecDepth 60000 in
/-- Witness for C10: counter 2 is reached both from 0 after two encodes and
from 1 after one encode; the next frame is identical either way. -/
theorem frame_deterministic_in_counter_witness :
    convert 2 "t" [Arg.int 42] = convert 2 "t" [Arg.int 42] :=
  frame_deterministic_in_counter 0 1 2 2
    [("e", [Arg.int 0]), ("e", [Arg.int 0])] [("e", [Arg.int 0])]
    "t" [Arg.int 42] (by decide) (by decide) rfl
